import Mathlib

/-!
# Verification of the KITCHEN-CHIMNEY media file resolver

A shallow embedding of `serve_media_file` from
`backend/api/views/media_views.py` (Django view serving media assets with
fallback resolution), together with the pieces of configuration it reads
from `backend/chimney_craft_backend/settings.py`.

Conventions of the embedding:
* Filesystem paths are relative to `MEDIA_ROOT`; the root directory itself
  is the path `""`.  `os.path.join(settings.MEDIA_ROOT, p)` is therefore
  modelled by `p` itself and nested joins by `pjoin`.
* A filesystem is a finite list of directories, each with an ordered list
  of the regular files it contains.  The list orders model the
  implementation-defined enumeration order of `os.listdir` / `glob.glob` /
  `os.walk` (the spec itself documents this order as implementation
  defined).
* `FileResponse(open(file_path, 'rb'))` streams the bytes of the file at
  `file_path` verbatim, so a response is modelled by the resolved path it
  streams plus its content type and headers.
-/

namespace Media

/-! ## String helpers mirroring the Python primitives used by the view -/

/-- Python `s.replace(' ', '_')`. -/
def replaceSpaces (s : String) : String :=
  String.mk (s.toList.map fun c => if c = ' ' then '_' else c)

/-- Python `s.lower()` (ASCII case, which is all the code relies on). -/
def lowerStr (s : String) : String :=
  String.mk (s.toList.map Char.toLower)

/-- `needle` occurs at the start of `hay` (on character lists). -/
def hasPrefixL : List Char → List Char → Bool
  | [], _ => true
  | _ :: _, [] => false
  | a :: s, b :: t => a = b && hasPrefixL s t

/-- Python `needle in hay` for strings: substring occurrence. -/
def hasInfixL : List Char → List Char → Bool
  | needle, [] => needle.isEmpty
  | needle, c :: t => hasPrefixL needle (c :: t) || hasInfixL needle t

/-- Python `needle in hay` on `String`. -/
def strIn (needle hay : String) : Bool :=
  hasInfixL needle.toList hay.toList

/-- Python `s.startswith(p)`. -/
def pyStartsWith (s p : String) : Bool :=
  hasPrefixL p.toList s.toList

/-- Python `s.endswith(p)`. -/
def pyEndsWith (s p : String) : Bool :=
  hasPrefixL p.toList.reverse s.toList.reverse

/-- Python `c.isalnum()` for the ASCII characters appearing in filenames. -/
def charIsAlnum (c : Char) : Bool :=
  c.isAlpha || c.isDigit

/-- Python `s.isalnum()`: nonempty and every character alphanumeric. -/
def pyIsAlnum (s : String) : Bool :=
  !s.isEmpty && s.toList.all charIsAlnum

/-- Python `s.isdigit()`: nonempty and every character a digit. -/
def pyIsDigit (s : String) : Bool :=
  !s.isEmpty && s.toList.all Char.isDigit

/-- Python `s.split(sep)` for a one-character separator, on character
lists (`acc` holds the current piece, reversed). -/
def splitOnCharAux (c : Char) : List Char → List Char → List (List Char)
  | [], acc => [acc.reverse]
  | x :: t, acc =>
      if x = c then acc.reverse :: splitOnCharAux c t []
      else splitOnCharAux c t (x :: acc)

/-- Python `s.split(sep)` for a one-character separator. -/
def splitOnChar (c : Char) (s : String) : List String :=
  (splitOnCharAux c s.toList []).map String.mk

/-- Python `sep.join(pieces)`. -/
def joinWith (sep : String) : List String → String
  | [] => ""
  | [x] => x
  | x :: y :: t => x ++ sep ++ joinWith sep (y :: t)

/-! ## Path helpers (`os.path` on POSIX, as used with `/`-separated
relative media paths that contain no duplicate or trailing slashes) -/

/-- `os.path.basename`: the part after the last `/`. -/
def pbasename (p : String) : String :=
  (splitOnChar '/' p).getLastD ""

/-- `os.path.dirname`: the part before the last `/` (`""` if none). -/
def pdirname (p : String) : String :=
  joinWith "/" (splitOnChar '/' p).dropLast

/-- `os.path.join` for relative components (no component is absolute and
components are nonempty, as in every call site of the view). -/
def pjoin (a b : String) : String :=
  if a = "" then b else a ++ "/" ++ b

/-- Index (from the start) of the last `.` of a name, if any. -/
def lastDotIdx (l : List Char) : Option Nat :=
  ((l.enum.filter fun ci => ci.2 = '.').getLast?).map (·.1)

/-- `os.path.splitext` on a bare file name: split at the last dot, except
that a name whose characters before that dot are all dots (e.g. `".glb"`)
has no extension. -/
def splitextName (b : String) : String × String :=
  match lastDotIdx b.toList with
  | none => (b, "")
  | some i =>
      if (b.toList.take i).all (· = '.') then (b, "")
      else (String.mk (b.toList.take i), String.mk (b.toList.drop i))

/-- The extension part of `os.path.splitext` applied to a full path (the
dot search only looks at the basename). -/
def extOf (p : String) : String :=
  (splitextName (pbasename p)).2

/-! ## The filesystem model -/

/-- A media filesystem: every existing directory (path relative to
`MEDIA_ROOT`, the root itself being `""`), in `os.walk` enumeration
order, paired with the ordered list of regular-file names it contains
(`os.listdir` / `glob` enumeration order). -/
structure FS where
  entries : List (String × List String)
deriving Repr

/-- The directory `d` exists. -/
def dirExists (fs : FS) (d : String) : Bool :=
  (fs.entries.lookup d).isSome

/-- `os.listdir d`: file names, then the names of immediate
subdirectories. -/
def listdirAll (fs : FS) (d : String) : List String :=
  ((fs.entries.lookup d).getD [])
    ++ ((fs.entries.map Prod.fst).filter fun d' =>
          d' ≠ d && pdirname d' = d).map pbasename

/-- A regular file exists at path `p`. -/
def fileExists (fs : FS) (p : String) : Bool :=
  match fs.entries.lookup (pdirname p) with
  | some names => names.contains (pbasename p)
  | none => false

/-- `os.path.exists p`: a file or a directory exists at `p`. -/
def pathExists (fs : FS) (p : String) : Bool :=
  fileExists fs p || dirExists fs p

/-- The name `n` matches the glob/fnmatch pattern `prefixPat ++ "*" ++
suffixPat` (the only pattern shape the view builds; `*` matches any run
of characters, possibly empty). -/
def matchesStar (n prefixPat suffixPat : String) : Bool :=
  pyStartsWith n prefixPat
    && pyEndsWith (String.mk (n.toList.drop prefixPat.length)) suffixPat

/-- `glob.glob(os.path.join(sd, prefixPat ++ "*" ++ suffixPat))`: matching
entries of `sd` in enumeration order, joined with `sd`. -/
def globIn (fs : FS) (sd prefixPat suffixPat : String) : List String :=
  ((listdirAll fs sd).filter fun n => matchesStar n prefixPat suffixPat).map
    (pjoin sd)

/-! ## The resolution passes of `serve_media_file`
(`media_views.py`, lines 26–242) -/

/-- Normalization pass (lines 32–58): when the space→underscore
substitution changes the base name, probe, short-circuiting on the first
hit: same directory, `models/original/`, lower-cased in the same
directory, lower-cased in `models/original/`. -/
def normPass (fs : FS) (dirName nameNoExt fileExt : String) : Option String :=
  let nu := replaceSpaces nameNoExt
  if nu ≠ nameNoExt then
    let alt := if dirName ≠ "" then pjoin dirName (nu ++ fileExt)
               else nu ++ fileExt
    if pathExists fs alt then some alt
    else
      let altOrig := pjoin (pjoin "models" "original") (nu ++ fileExt)
      if pathExists fs altOrig then some altOrig
      else
        let nl := lowerStr nu
        let altLower := if dirName ≠ "" then pjoin dirName (nl ++ fileExt)
                        else nl ++ fileExt
        if pathExists fs altLower then some altLower
        else
          let altLowerOrig := pjoin (pjoin "models" "original") (nl ++ fileExt)
          if pathExists fs altLowerOrig then some altLowerOrig
          else none
  else none

/-- Lines 72–93: strip a trailing token that looks like a short
alphanumeric unique id / version number (or the last two tokens when the
second-to-last is a number or contains `sec`/`secs`). -/
def computeBasePattern (searchPattern : String) : String :=
  let parts := splitOnChar '_' searchPattern
  if parts.length > 1 then
    let lastPart := parts.getLastD ""
    if lastPart.length ≤ 10 && (pyIsAlnum lastPart || pyIsDigit lastPart) then
      joinWith "_" parts.dropLast
    else if parts.length > 2 then
      let secondLast := parts.dropLast.getLastD ""
      if pyIsDigit secondLast || strIn "secs" (lowerStr secondLast)
          || strIn "sec" (lowerStr secondLast) then
        joinWith "_" (parts.dropLast.dropLast)
      else searchPattern
    else searchPattern
  else searchPattern

/-- Lines 96–117: candidate search directories in order of preference —
same directory, `models/original` and `models` when the directory name
mentions `models` (the `dir_name == 'models/original'` branch of the code
is unreachable because `'models' in dir_name` already holds there, and is
mirrored as written), the media root, then every directory under
`models/` in walk order. -/
def searchLocations (fs : FS) (dirName : String) : List String :=
  (if dirName ≠ "" then [dirName] else [])
    ++ (if strIn "models" dirName || dirName = "models" then
          [pjoin "models" "original", "models"]
        else if dirName = "models/original" then
          ["models", pjoin "models" "original"]
        else [])
    ++ [""]
    ++ (if pathExists fs "models" then
          (fs.entries.map Prod.fst).filter fun d =>
            d = "models" || pyStartsWith d "models/"
        else [])

/-- The `seen`-set loop of lines 119–125: keep the first occurrence of
each element. -/
def dedupAux : List String → List String → List String
  | [], _ => []
  | x :: t, seen =>
      if seen.contains x then dedupAux t seen
      else x :: dedupAux t (x :: seen)

/-- Lines 119–125: drop duplicates (keeping first occurrences) and
directories that do not exist. -/
def uniqueLocations (fs : FS) (dirName : String) : List String :=
  dedupAux ((searchLocations fs dirName).filter (pathExists fs)) []

/-- Strategy 1 (lines 130–152): glob `basePattern*ext` in `sd`; on
failure retry case-insensitively over `os.listdir sd`, then once more
with spaces of the candidate names turned into underscores. The first
match wins. -/
def strategy1 (fs : FS) (sd basePattern fileExt : String) : Option String :=
  let ms := globIn fs sd basePattern fileExt
  let ms :=
    if ms.isEmpty && dirExists fs sd then
      let allFiles := listdirAll fs sd
      let ci := (allFiles.filter fun f =>
        matchesStar (lowerStr f) (lowerStr basePattern) fileExt).map (pjoin sd)
      if ci.isEmpty then
        (allFiles.filter fun f =>
          matchesStar (replaceSpaces (lowerStr f)) (lowerStr basePattern)
            fileExt).map (pjoin sd)
      else ci
    else ms
  ms.head?

/-- The loop body of lines 170–179: running best match and best score,
updated on strictly greater score only (so the earliest candidate at the
maximal score is kept). -/
def pickAux (score : String → Nat) :
    List String → Option String × Nat → Option String × Nat
  | [], acc => acc
  | f :: t, (best, bs) =>
      if bs < score f then pickAux score t (some f, score f)
      else pickAux score t (best, bs)

/-- `best_match` after scanning `l` with `best_score` starting at `0`
(`best_match` starting at `None`). -/
def pickBest (score : String → Nat) (l : List String) : Option String :=
  (pickAux score l (none, 0)).1

/-- The strategy-2 score of a candidate (lines 172–176): number of
pattern tokens occurring as substrings of the candidate's basename, plus
`max 0 (10 - |len basename - len requestedNameNoExt|)`. -/
def scoreS2 (pparts : List String) (nameNoExt : String)
    (matchFile : String) : Nat :=
  let matchName := pbasename matchFile
  (pparts.filter fun part => strIn part matchName).length
    + (10 - min 10 (Int.natAbs
        ((matchName.length : Int) - (nameNoExt.length : Int))))

/-- Strategy 2 (lines 160–184): progressively shorter prefixes of the
base pattern (dropping trailing underscore tokens); at the first length
with glob matches and a positive-scoring candidate, return the best. -/
def strategy2Go (fs : FS) (sd fileExt nameNoExt : String)
    (pparts : List String) : List Nat → Option String
  | [] => none
  | i :: rest =>
      let shorter := joinWith "_" (pparts.take i)
      let ms := globIn fs sd shorter fileExt
      match pickBest (scoreS2 pparts nameNoExt) ms with
      | some b => some b
      | none => strategy2Go fs sd fileExt nameNoExt pparts rest

/-- Strategy 2 at one search directory: lengths `len-1, …, 1`. -/
def strategy2 (fs : FS) (sd basePattern nameNoExt fileExt : String) :
    Option String :=
  let pparts := splitOnChar '_' basePattern
  strategy2Go fs sd fileExt nameNoExt pparts
    ((List.range (pparts.length - 1)).reverse.map (· + 1))

/-- The strategy-3 score (lines 198–204): number of original tokens of
the request occurring as substrings of the candidate's basename. -/
def scoreS3 (parts : List String) (matchFile : String) : Nat :=
  (parts.filter fun part => strIn part (pbasename matchFile)).length

/-- Strategy 3 (lines 189–209): glob on the first token alone and keep
the best-scoring match, but only when its score reaches `2`. -/
def strategy3 (fs : FS) (sd : String) (parts : List String)
    (fileExt : String) : Option String :=
  if parts.length > 0 then
    let ms := globIn fs sd (parts.headD "") fileExt
    match pickBest (scoreS3 parts) ms with
    | some b => if 2 ≤ scoreS3 parts b then some b else none
    | none => none
  else none

/-- First `some` value of `f` over `l` (the `for … break` pattern). -/
def firstSome (f : String → Option String) : List String → Option String
  | [] => none
  | x :: t =>
      match f x with
      | some r => some r
      | none => firstSome f t

/-- Pattern-relaxation pass (lines 62–212), reached only for `.glb`
requests: strategies 1–3 in order at each search location, locations in
order of preference. -/
def relaxPass (fs : FS) (dirName nameNoExt fileExt : String) :
    Option String :=
  let searchPattern := replaceSpaces nameNoExt
  let parts := splitOnChar '_' searchPattern
  let basePattern := computeBasePattern searchPattern
  firstSome
    (fun sd =>
      match strategy1 fs sd basePattern fileExt with
      | some r => some r
      | none =>
          match strategy2 fs sd basePattern nameNoExt fileExt with
          | some r => some r
          | none => strategy3 fs sd parts fileExt)
    (uniqueLocations fs dirName)

/-- The whole resolution (lines 23–215): direct hit, then normalization,
then (for `.glb` only) pattern relaxation; `none` when the final
`os.path.exists` check still fails. -/
def resolvePath (fs : FS) (path : String) : Option String :=
  if pathExists fs path then some path
  else
    let baseName := pbasename path
    let dirName := pdirname path
    let nameNoExt := (splitextName baseName).1
    let fileExt := (splitextName baseName).2
    let afterNorm :=
      match normPass fs dirName nameNoExt fileExt with
      | some p => p
      | none => path
    let afterRelax :=
      if !pathExists fs afterNorm && lowerStr fileExt = ".glb" then
        match relaxPass fs dirName nameNoExt fileExt with
        | some p => p
        | none => afterNorm
      else afterNorm
    if pathExists fs afterRelax then some afterRelax else none

/-! ## Response construction (lines 232–312) -/

/-- The slice of `settings.py` the view reads: `DEBUG` (line 24, `True`
in the shipped configuration), `CORS_ALLOWED_ORIGINS` and
`CORS_ALLOW_CREDENTIALS`. -/
structure Settings where
  debug : Bool
  corsAllowedOrigins : List String
  corsAllowCredentials : Bool

/-- The slice of the Django request the view reads: the HTTP method, the
`Origin` header (`none` when absent), the `Accept` header (read both as
`request.headers.get('Accept', '')` and as
`request.META.get('HTTP_ACCEPT', '')`, which name the same header; `""`
when absent) and `request.path` (the full URL path). -/
structure Request where
  method : String
  origin : Option String
  accept : String
  urlPath : String

/-- Lines 233–235: the caller counts as an API caller when the `Accept`
header contains `application/json` (checked twice by the code, through
`request.headers` and through `request.META`) or the URL path starts
with `/api/`. -/
def isApiRequest (req : Request) : Bool :=
  strIn "application/json" req.accept || pyStartsWith req.urlPath "/api/"

/-- The static extension→MIME table of lines 246–262. -/
def content_type_map : List (String × String) :=
  [(".glb", "model/gltf-binary"),
   (".gltf", "model/gltf+json"),
   (".stp", "application/octet-stream"),
   (".step", "application/octet-stream"),
   (".stl", "application/octet-stream"),
   (".obj", "application/octet-stream"),
   (".fbx", "application/octet-stream"),
   (".3ds", "application/octet-stream"),
   (".dwg", "application/acad"),
   (".png", "image/png"),
   (".jpg", "image/jpeg"),
   (".jpeg", "image/jpeg"),
   (".gif", "image/gif"),
   (".svg", "image/svg+xml"),
   (".webp", "image/webp")]

/-- Modelled from the Python standard library: the entries of
`mimetypes.guess_type` for extensions a media path could carry that are
absent from `content_type_map` (a representative subset; the table is
stdlib data, not repository code, and no claim depends on its exact
contents). -/
def mimeGuess (p : String) : Option String :=
  List.lookup (lowerStr (extOf p))
    [(".txt", "text/plain"), (".html", "text/html"),
     (".css", "text/css"), (".js", "text/javascript"),
     (".json", "application/json"), (".pdf", "application/pdf"),
     (".zip", "application/zip"), (".mp4", "video/mp4"),
     (".bin", "application/octet-stream")]

/-- Extensions given the streaming headers at lines 278–280. -/
def binaryHeaderExts : List String :=
  [".glb", ".gltf", ".stp", ".step", ".stl", ".obj", ".fbx", ".3ds",
   ".dwg"]

/-- A successful media response: the path whose bytes
`FileResponse(open(file_path, 'rb'))` streams verbatim as the body, the
`Content-Type`, and the extra headers set on the response in order. -/
structure MediaResponse where
  filePath : String
  contentType : String
  headers : List (String × String)
deriving Repr, DecidableEq

/-- Lines 282–301: CORS origin/credentials headers. In `DEBUG` mode the
request's origin is echoed with credentials allowed, or `*` without
credentials when no origin was sent; otherwise only allow-listed origins
are echoed. -/
def corsHeaders (s : Settings) (req : Request) : List (String × String) :=
  if s.debug then
    match req.origin with
    | some o => [("Access-Control-Allow-Origin", o),
                 ("Access-Control-Allow-Credentials", "true")]
    | none => [("Access-Control-Allow-Origin", "*"),
               ("Access-Control-Allow-Credentials", "false")]
  else
    match req.origin with
    | some o =>
        if s.corsAllowedOrigins.contains o then
          [("Access-Control-Allow-Origin", o),
           ("Access-Control-Allow-Credentials",
             if s.corsAllowCredentials then "true" else "false")]
        else [("Access-Control-Allow-Credentials", "false")]
    | none => [("Access-Control-Allow-Credentials", "false")]

/-- Lines 303–306: headers set on every successful response. -/
def commonCorsHeaders : List (String × String) :=
  [("Access-Control-Allow-Methods", "GET, HEAD, OPTIONS"),
   ("Access-Control-Allow-Headers",
     "Accept, Accept-Language, Content-Language, Content-Type, Origin, X-Requested-With"),
   ("Access-Control-Expose-Headers",
     "Content-Type, Content-Length, Accept-Ranges, Content-Disposition")]

/-- Lines 244–306: the `FileResponse` built for the resolved path `fp`:
content type from `content_type_map` by lower-cased extension, else from
`mimetypes`, else `application/octet-stream`; streaming headers for the
binary/model extensions; then the CORS headers. -/
def buildResponse (s : Settings) (req : Request) (fp : String) :
    MediaResponse :=
  let ext := lowerStr (extOf fp)
  let ct :=
    match List.lookup ext content_type_map with
    | some c => c
    | none =>
        match mimeGuess fp with
        | some c => c
        | none => "application/octet-stream"
  let streamHdrs :=
    if binaryHeaderExts.contains ext then
      [("Content-Disposition",
         "inline; filename=\"" ++ pbasename fp ++ "\""),
       ("Accept-Ranges", "bytes")]
    else []
  { filePath := fp
    contentType := ct
    headers := streamHdrs ++ corsHeaders s req ++ commonCorsHeaders }

/-- What a call of `serve_media_file` does. `http404` models `raise
Http404` (caught by Django and rendered as the framework's default
not-found page, still a 404-class response, not an unhandled exception);
`nameError` models the `NameError` raised by evaluating the unbound name
`Response` at line 310 (`Response` is never imported in
`media_views.py`), which Django surfaces as a 500 server error. -/
inductive Outcome where
  | ok (r : MediaResponse)
  | jsonNotFound (path : String)
  | http404 (path : String)
  | nameError
deriving Repr, DecidableEq

/-- `serve_media_file(request, path)` with `path` already URL-decoded
(the code applies `urllib.parse.unquote` first): resolve; on failure
answer 404 (JSON for API callers, `Http404` otherwise); on success build
the file response — then, for an `OPTIONS` request, line 310 evaluates
the unbound name `Response` and raises `NameError` instead of
returning. -/
def serve (s : Settings) (fs : FS) (req : Request) (path : String) :
    Outcome :=
  match resolvePath fs path with
  | none =>
      if isApiRequest req then .jsonNotFound path else .http404 path
  | some fp =>
      let r := buildResponse s req fp
      if req.method = "OPTIONS" then .nameError else .ok r

/-! ## Concrete fixtures used to evaluate the model -/

/-- The shipped configuration: `DEBUG = True` (`settings.py` line 24). -/
def devSettings : Settings := ⟨true, [], true⟩

/-- A media root holding only `x.png`. -/
def fsPng : FS := ⟨[("", ["x.png"])]⟩

/-- An empty media root. -/
def fsEmpty : FS := ⟨[("", [])]⟩

/-- A media root where only the suffix-free `Drawing_ABC.glb` exists. -/
def fsDrawing : FS := ⟨[("", ["Drawing_ABC.glb"])]⟩

/-- A media root where the model lives under `models/original/` only. -/
def fsOriginal : FS :=
  ⟨[("", []), ("models", []),
    ("models/original", ["GA_Drawing_DS2_Date_201023041758.glb"])]⟩

/-- A media root where `Foo.png` exists only under `models/original/`. -/
def fsFooPng : FS := ⟨[("", []), ("models", []), ("models/original", ["Foo.png"])]⟩

/-- A media root holding the underscore-named `models/My_Model.glb`. -/
def fsMyModel : FS := ⟨[("", []), ("models", ["My_Model.glb"])]⟩

/-- A media root holding `models/Foo.stl` (a suffix-free STL model). -/
def fsFooStl : FS := ⟨[("", []), ("models", ["Foo.stl"])]⟩

/-- A media root with a single file matching the first token `Foo`. -/
def fsFooBar : FS := ⟨[("", ["Foo_bar_baz.glb"])]⟩

/-- An `OPTIONS` request carrying no `Origin` header. -/
def reqOptionsPlain : Request := ⟨"OPTIONS", none, "", "/media/x.png"⟩

/-- An `OPTIONS` request from an API-style caller. -/
def reqOptionsJson : Request := ⟨"OPTIONS", none, "application/json", "/media/zzz.glb"⟩

/-- A plain `GET` request with no `Origin` header. -/
def reqGetPlain : Request := ⟨"GET", none, "", "/media/x"⟩

/-- A `GET` request carrying `Origin: http://example.test`. -/
def reqGetOrigin : Request := ⟨"GET", some "http://example.test", "", "/media/x.png"⟩

/-- A `GET` request whose `Accept` header asks for JSON. -/
def reqGetJson : Request := ⟨"GET", none, "application/json", "/media/zzz.glb"⟩

/-! ## Helper lemmas about the best-match selection loop -/

/-- The running best score never decreases over the loop. -/
theorem pickAux_snd_le (score : String → Nat) :
    ∀ (l : List String) (best : Option String) (bs : Nat),
      bs ≤ (pickAux score l (best, bs)).2
  | [], _, _ => le_refl _
  | f :: t, best, bs => by
      dsimp [pickAux]
      by_cases hf : bs < score f
      · simp only [if_pos hf]
        exact le_trans (le_of_lt hf) (pickAux_snd_le score t (some f) (score f))
      · simp only [if_neg hf]
        exact pickAux_snd_le score t best bs

/-- Every scanned candidate's score is bounded by the final best score. -/
theorem pickAux_mem_le (score : String → Nat) :
    ∀ (l : List String) (best : Option String) (bs : Nat),
      ∀ x ∈ l, score x ≤ (pickAux score l (best, bs)).2
  | f :: t, best, bs, x, hx => by
      dsimp [pickAux]
      by_cases hf : bs < score f
      · simp only [if_pos hf]
        rcases List.mem_cons.mp hx with rfl | hxt
        · exact pickAux_snd_le score t (some x) (score x)
        · exact pickAux_mem_le score t (some f) (score f) x hxt
      · simp only [if_neg hf]
        rcases List.mem_cons.mp hx with rfl | hxt
        · exact le_trans (le_of_not_lt hf) (pickAux_snd_le score t best bs)
        · exact pickAux_mem_le score t best bs x hxt

/-- When no remaining candidate beats the running best score, the loop
changes nothing. -/
theorem pickAux_stable (score : String → Nat) :
    ∀ (l : List String) (best : Option String) (bs : Nat),
      (∀ x ∈ l, score x ≤ bs) → pickAux score l (best, bs) = (best, bs)
  | [], _, _, _ => rfl
  | f :: t, best, bs, h => by
      dsimp [pickAux]
      have hf : ¬ bs < score f := not_lt.mpr (h f (List.mem_cons_self f t))
      simp only [if_neg hf]
      exact pickAux_stable score t best bs fun x hx =>
        h x (List.mem_cons_of_mem f hx)

/-- When some candidate beats the initial score, the loop returns the
first candidate attaining the final best score, and all candidates
before it score strictly lower (strict-improvement update). -/
theorem pickAux_first_max (score : String → Nat) :
    ∀ (l : List String) (best : Option String) (bs : Nat),
      bs < (pickAux score l (best, bs)).2 →
      ∃ pre c suf, l = pre ++ c :: suf ∧
        (pickAux score l (best, bs)).1 = some c ∧
        score c = (pickAux score l (best, bs)).2 ∧
        ∀ x ∈ pre, score x < score c
  | [], best, bs, h => absurd h (lt_irrefl bs)
  | f :: t, best, bs, h => by
      by_cases hf : bs < score f
      · have hstep : pickAux score (f :: t) (best, bs) =
            pickAux score t (some f, score f) := by
          dsimp [pickAux]; rw [if_pos hf]
        by_cases hinc : score f < (pickAux score t (some f, score f)).2
        · obtain ⟨pre, c, suf, ht, hfst, hsc, hpre⟩ :=
            pickAux_first_max score t (some f) (score f) hinc
          refine ⟨f :: pre, c, suf, by rw [ht, List.cons_append],
            by rw [hstep]; exact hfst, by rw [hstep]; exact hsc, ?_⟩
          intro x hx
          rcases List.mem_cons.mp hx with rfl | hxp
          · exact lt_of_lt_of_le hinc (le_of_eq hsc.symm)
          · exact hpre x hxp
        · have hle : (pickAux score t (some f, score f)).2 = score f :=
            le_antisymm (not_lt.mp hinc)
              (pickAux_snd_le score t (some f) (score f))
          have hall : ∀ x ∈ t, score x ≤ score f := fun x hx =>
            le_trans (pickAux_mem_le score t (some f) (score f) x hx)
              (le_of_eq hle)
          have hres : pickAux score t (some f, score f) = (some f, score f) :=
            pickAux_stable score t (some f) (score f) hall
          exact ⟨[], f, t, rfl, by rw [hstep, hres], by rw [hstep, hres],
            fun x hx => absurd hx (List.not_mem_nil x)⟩
      · have hstep : pickAux score (f :: t) (best, bs) =
            pickAux score t (best, bs) := by
          dsimp [pickAux]; rw [if_neg hf]
        rw [hstep] at h
        obtain ⟨pre, c, suf, ht, hfst, hsc, hpre⟩ :=
          pickAux_first_max score t best bs h
        refine ⟨f :: pre, c, suf, by rw [ht, List.cons_append],
          by rw [hstep]; exact hfst, by rw [hstep]; exact hsc, ?_⟩
        intro x hx
        rcases List.mem_cons.mp hx with rfl | hxp
        · calc score x ≤ bs := le_of_not_lt hf
            _ < (pickAux score t (best, bs)).2 := h
            _ = score c := hsc.symm
        · exact hpre x hxp

/-! ## The claims -/

/-- C1: the claim says every `OPTIONS` request returns an empty-body
success response with the CORS headers regardless of resolution. The
code does not: for a path that resolves, line 310 evaluates the unbound
name `Response` (never imported) and raises `NameError`; for a path that
does not resolve, the 404 branch (lines 215–242) runs before the
`OPTIONS` check is ever reached. Both failing evaluations are exhibited
here. -/
theorem options_request_hits_undefined_response_name :
    serve devSettings fsPng reqOptionsPlain "x.png" = Outcome.nameError ∧
    serve devSettings fsEmpty reqOptionsJson "zzz.glb" =
      Outcome.jsonNotFound "zzz.glb" := by
  exact ⟨rfl, rfl⟩

/-- C2: a request whose decoded path names an existing file is served as
exactly that file (no fallback pass runs — the response streams the
bytes of the requested path itself), with the `Content-Type` given by
the static extension table whenever the extension is in it. -/
theorem direct_hit_streams_requested_file (s : Settings) (fs : FS)
    (req : Request) (path : String)
    (hf : fileExists fs path = true) (hm : req.method ≠ "OPTIONS") :
    serve s fs req path = Outcome.ok (buildResponse s req path) ∧
    (buildResponse s req path).filePath = path ∧
    ∀ ct, List.lookup (lowerStr (extOf path)) content_type_map = some ct →
      (buildResponse s req path).contentType = ct := by
  have hp : pathExists fs path = true := by simp [pathExists, hf]
  refine ⟨by simp [serve, resolvePath, hp, hm], rfl, ?_⟩
  intro ct hct
  simp [buildResponse, hct]

/-- C2 witness: `x.png` exists, a `GET` for it streams `x.png` with the
table's `image/png` content type. -/
theorem direct_hit_streams_requested_file_witness :
    serve devSettings fsPng reqGetPlain "x.png" =
      Outcome.ok (buildResponse devSettings reqGetPlain "x.png") ∧
    (buildResponse devSettings reqGetPlain "x.png").contentType =
      "image/png" :=
  ⟨(direct_hit_streams_requested_file devSettings fsPng reqGetPlain "x.png"
      (by decide) (by decide)).1,
   (direct_hit_streams_requested_file devSettings fsPng reqGetPlain "x.png"
      (by decide) (by decide)).2.2 "image/png" (by decide)⟩

/-- C3: when no candidate resolves, the view returns a 404-class
response without an unhandled exception: a JSON 404 exactly when the
`Accept` header mentions `application/json` or the URL path starts with
`/api/`, and otherwise `Http404` (rendered by the framework as its
default not-found page). -/
theorem unresolved_request_yields_404 (s : Settings) (fs : FS)
    (req : Request) (path : String)
    (h : resolvePath fs path = none) :
    serve s fs req path =
      if strIn "application/json" req.accept
          || pyStartsWith req.urlPath "/api/"
      then Outcome.jsonNotFound path else Outcome.http404 path := by
  simp [serve, h, isApiRequest]

/-- C3 witness: an unresolvable request from a JSON-accepting caller
gets the JSON 404 body; the same request from a plain caller gets the
`Http404` path. -/
theorem unresolved_request_yields_404_witness :
    serve devSettings fsEmpty reqGetJson "zzz.glb" =
      Outcome.jsonNotFound "zzz.glb" ∧
    serve devSettings fsEmpty reqGetPlain "zzz.glb" =
      Outcome.http404 "zzz.glb" :=
  ⟨unresolved_request_yields_404 devSettings fsEmpty reqGetJson "zzz.glb"
      (by decide),
   unresolved_request_yields_404 devSettings fsEmpty reqGetPlain "zzz.glb"
      (by decide)⟩

/-- C4: both spec scenarios for the pattern-relaxation pass. A request
for `Drawing_ABC_9fk2lq.glb` (trailing short alphanumeric suffix) where
only `Drawing_ABC.glb` exists resolves to that file; a request for
`models/GA_Drawing_DS2_Date_201023041758_XYZ123.glb` where the
suffix-free file exists only in `models/original/` resolves there and is
streamed with `Content-Type: model/gltf-binary`. -/
theorem pattern_relaxation_resolves_suffixed_requests :
    resolvePath fsDrawing "Drawing_ABC_9fk2lq.glb" =
      some "Drawing_ABC.glb" ∧
    resolvePath fsOriginal
        "models/GA_Drawing_DS2_Date_201023041758_XYZ123.glb" =
      some "models/original/GA_Drawing_DS2_Date_201023041758.glb" ∧
    serve devSettings fsOriginal reqGetPlain
        "models/GA_Drawing_DS2_Date_201023041758_XYZ123.glb" =
      Outcome.ok (buildResponse devSettings reqGetPlain
        "models/original/GA_Drawing_DS2_Date_201023041758.glb") ∧
    (buildResponse devSettings reqGetPlain
        "models/original/GA_Drawing_DS2_Date_201023041758.glb").contentType =
      "model/gltf-binary" := by
  exact ⟨rfl, rfl, rfl, rfl⟩

/-- C5 counterexample: the claim asserts the normalization pass runs
whenever the direct candidate is missing; but the code (line 34) runs it
only when the space→underscore substitution actually changes the base
name. Here the direct candidate `models/Foo.png` is missing, the
substituted name equals the original, and the file exists at the
`models/original/` candidate the pass would probe — yet nothing
resolves. -/
theorem normalization_pass_requires_space_counterexample :
    pathExists fsFooPng "models/Foo.png" = false ∧
    replaceSpaces "Foo" = "Foo" ∧
    fileExists fsFooPng "models/original/Foo.png" = true ∧
    resolvePath fsFooPng "models/Foo.png" = none := by
  exact ⟨rfl, rfl, rfl, rfl⟩

/-- C5 as amended: when the base name contains a space (so the
substitution changes it), the normalization pass returns the first
existing candidate among: same directory, `models/original/`,
lower-cased in the same directory, lower-cased in `models/original/`;
and in particular the request `models/My Model.glb` finds the on-disk
`models/My_Model.glb`. -/
theorem normalization_pass_candidate_order (fs : FS) (d n e : String)
    (h : replaceSpaces n ≠ n) :
    normPass fs d n e =
      ([if d ≠ "" then pjoin d (replaceSpaces n ++ e)
          else replaceSpaces n ++ e,
        pjoin (pjoin "models" "original") (replaceSpaces n ++ e),
        if d ≠ "" then pjoin d (lowerStr (replaceSpaces n) ++ e)
          else lowerStr (replaceSpaces n) ++ e,
        pjoin (pjoin "models" "original")
          (lowerStr (replaceSpaces n) ++ e)]).find?
        (fun p => pathExists fs p) ∧
    resolvePath fsMyModel "models/My Model.glb" =
      some "models/My_Model.glb" := by
  constructor
  · simp only [normPass, if_pos h, List.find?]
    by_cases h1 : pathExists fs
        (if d ≠ "" then pjoin d (replaceSpaces n ++ e)
         else replaceSpaces n ++ e) <;>
      by_cases h2 : pathExists fs
        (pjoin (pjoin "models" "original") (replaceSpaces n ++ e)) <;>
      by_cases h3 : pathExists fs
        (if d ≠ "" then pjoin d (lowerStr (replaceSpaces n) ++ e)
         else lowerStr (replaceSpaces n) ++ e) <;>
      by_cases h4 : pathExists fs
        (pjoin (pjoin "models" "original")
          (lowerStr (replaceSpaces n) ++ e)) <;>
      simp_all
  · decide

/-- C5 witness: the amended statement applied to the spec's example,
`models/My Model.glb` versus on-disk `models/My_Model.glb`. -/
theorem normalization_pass_candidate_order_witness :
    normPass fsMyModel "models" "My Model" ".glb" =
      ([pjoin "models" (replaceSpaces "My Model" ++ ".glb"),
        pjoin (pjoin "models" "original") (replaceSpaces "My Model" ++ ".glb"),
        pjoin "models" (lowerStr (replaceSpaces "My Model") ++ ".glb"),
        pjoin (pjoin "models" "original")
          (lowerStr (replaceSpaces "My Model") ++ ".glb")]).find?
        (fun p => pathExists fsMyModel p) ∧
    resolvePath fsMyModel "models/My Model.glb" =
      some "models/My_Model.glb" :=
  normalization_pass_candidate_order fsMyModel "models" "My Model" ".glb"
    (by decide)

/-- C6: when several candidates match a shortened pattern, the code's
selection loop returns the candidate maximizing the strategy-2 score
(count of pattern tokens occurring as substrings of the candidate
basename, plus a bonus decreasing in the absolute length difference from
the requested name), and among equal scores the earliest candidate in
filesystem enumeration order: every candidate listed before the chosen
one scores strictly lower. -/
theorem shortened_pattern_picks_first_best_scoring (pparts : List String)
    (n : String) (l : List String)
    (h : ∃ x ∈ l, 0 < scoreS2 pparts n x) :
    ∃ pre c suf, l = pre ++ c :: suf ∧
      pickBest (scoreS2 pparts n) l = some c ∧
      (∀ x ∈ l, scoreS2 pparts n x ≤ scoreS2 pparts n c) ∧
      ∀ x ∈ pre, scoreS2 pparts n x < scoreS2 pparts n c := by
  obtain ⟨x, hx, hpos⟩ := h
  have hlt : 0 < (pickAux (scoreS2 pparts n) l (none, 0)).2 :=
    lt_of_lt_of_le hpos (pickAux_mem_le _ l none 0 x hx)
  obtain ⟨pre, c, suf, hl, hfst, hsc, hpre⟩ :=
    pickAux_first_max _ l none 0 hlt
  exact ⟨pre, c, suf, hl, hfst,
    fun y hy => le_trans (pickAux_mem_le _ l none 0 y hy)
      (le_of_eq hsc.symm), hpre⟩

/-- C6 witness: two equally scored candidates; the selection applies and
yields the decomposition around the picked candidate. -/
theorem shortened_pattern_picks_first_best_scoring_witness :
    ∃ pre c suf,
      (["A_B_1.glb", "A_B_2.glb"] : List String) = pre ++ c :: suf ∧
      pickBest (scoreS2 ["A", "B"] "A_B_x") ["A_B_1.glb", "A_B_2.glb"] =
        some c ∧
      (∀ x ∈ (["A_B_1.glb", "A_B_2.glb"] : List String),
        scoreS2 ["A", "B"] "A_B_x" x ≤ scoreS2 ["A", "B"] "A_B_x" c) ∧
      ∀ x ∈ pre, scoreS2 ["A", "B"] "A_B_x" x < scoreS2 ["A", "B"] "A_B_x" c :=
  shortened_pattern_picks_first_best_scoring ["A", "B"] "A_B_x"
    ["A_B_1.glb", "A_B_2.glb"] (by decide)

/-- C7: in `DEBUG` mode, every successful media response echoes the
request's `Origin` with `Access-Control-Allow-Credentials: true`, and
falls back to `*` with credentials disabled when no `Origin` header was
sent. -/
theorem debug_mode_cors_headers (s : Settings) (fs : FS) (req : Request)
    (path fp : String) (hdbg : s.debug = true)
    (hres : resolvePath fs path = some fp) (hm : req.method ≠ "OPTIONS") :
    serve s fs req path = Outcome.ok (buildResponse s req fp) ∧
    (∀ o, req.origin = some o →
      (buildResponse s req fp).headers.lookup "Access-Control-Allow-Origin" =
        some o ∧
      (buildResponse s req fp).headers.lookup
        "Access-Control-Allow-Credentials" = some "true") ∧
    (req.origin = none →
      (buildResponse s req fp).headers.lookup "Access-Control-Allow-Origin" =
        some "*" ∧
      (buildResponse s req fp).headers.lookup
        "Access-Control-Allow-Credentials" = some "false") := by
  refine ⟨by simp [serve, hres, hm], ?_, ?_⟩
  · intro o ho
    by_cases hb : lowerStr (extOf fp) ∈ binaryHeaderExts <;>
      simp [buildResponse, corsHeaders, hdbg, ho, hb, List.lookup_cons]
  · intro ho
    by_cases hb : lowerStr (extOf fp) ∈ binaryHeaderExts <;>
      simp [buildResponse, corsHeaders, hdbg, ho, hb, List.lookup_cons]

/-- C7 witness: with `Origin: http://example.test` the origin is echoed
with credentials; with no origin the response allows `*` without
credentials. -/
theorem debug_mode_cors_headers_witness :
    ((buildResponse devSettings reqGetOrigin "x.png").headers.lookup
        "Access-Control-Allow-Origin" = some "http://example.test" ∧
     (buildResponse devSettings reqGetOrigin "x.png").headers.lookup
        "Access-Control-Allow-Credentials" = some "true") ∧
    ((buildResponse devSettings reqGetPlain "x.png").headers.lookup
        "Access-Control-Allow-Origin" = some "*" ∧
     (buildResponse devSettings reqGetPlain "x.png").headers.lookup
        "Access-Control-Allow-Credentials" = some "false") :=
  ⟨(debug_mode_cors_headers devSettings fsPng reqGetOrigin "x.png" "x.png"
      rfl (by decide) (by decide)).2.1 "http://example.test" rfl,
   (debug_mode_cors_headers devSettings fsPng reqGetPlain "x.png" "x.png"
      rfl (by decide) (by decide)).2.2 rfl⟩

/-- C8 counterexample: the claim says pattern relaxation runs for every
binary-format extension, listing `.stp`, `.step`, `.stl`, `.obj`,
`.fbx`, `.3ds` alongside `.glb`; but line 62 gates the pass on
`file_ext.lower() == '.glb'` alone. Here the relaxation search would
resolve the `.stl` request to `models/Foo.stl`, yet the resolution
returns nothing. -/
theorem relaxation_pass_skipped_for_non_glb_counterexample :
    relaxPass fsFooStl "models" "Foo_AB12" ".stl" = some "models/Foo.stl" ∧
    resolvePath fsFooStl "models/Foo_AB12.stl" = none := by
  exact ⟨rfl, rfl⟩

/-- C8 as amended: after the direct probe and the normalization pass
fail, the pattern-relaxation pass runs only for requests whose extension
lower-cases to `.glb`: any other extension resolves to nothing, while a
`.glb` request resolves to whatever the relaxation search finds. -/
theorem relaxation_pass_only_for_glb (fs : FS) (path : String)
    (hd : pathExists fs path = false)
    (hn : normPass fs (pdirname path) (splitextName (pbasename path)).1
            (splitextName (pbasename path)).2 = none) :
    (lowerStr (splitextName (pbasename path)).2 ≠ ".glb" →
       resolvePath fs path = none) ∧
    ∀ p, lowerStr (splitextName (pbasename path)).2 = ".glb" →
       relaxPass fs (pdirname path) (splitextName (pbasename path)).1
         (splitextName (pbasename path)).2 = some p →
       pathExists fs p = true →
       resolvePath fs path = some p := by
  constructor
  · intro hne
    simp [resolvePath, hd, hn, hne]
  · intro p heq hrel hpe
    simp [resolvePath, hd, hn, heq, hrel, hpe]

/-- C8 amended witness: the `.stl` request never reaches relaxation and
404s; the analogous `.glb` request resolves through relaxation. -/
theorem relaxation_pass_only_for_glb_witness :
    resolvePath fsFooStl "models/Foo_AB12.stl" = none ∧
    resolvePath fsDrawing "Drawing_ABC_9fk2lq.glb" =
      some "Drawing_ABC.glb" :=
  ⟨(relaxation_pass_only_for_glb fsFooStl "models/Foo_AB12.stl"
      (by decide) (by decide)).1 (by decide),
   (relaxation_pass_only_for_glb fsDrawing "Drawing_ABC_9fk2lq.glb"
      (by decide) (by decide)).2 "Drawing_ABC.glb" (by decide) (by decide)
      (by decide)⟩

/-- C9: a successful response carries `Accept-Ranges: bytes` and a
`Content-Disposition: inline` naming the basename of the resolved (not
the requested) path exactly when the resolved file's lower-cased
extension is one of the binary/model formats; for any other extension
neither header is present. -/
theorem binary_format_streaming_headers (s : Settings) (fs : FS)
    (req : Request) (path fp : String)
    (hres : resolvePath fs path = some fp) (hm : req.method ≠ "OPTIONS") :
    serve s fs req path = Outcome.ok (buildResponse s req fp) ∧
    (lowerStr (extOf fp) ∈ binaryHeaderExts →
      (buildResponse s req fp).headers.lookup "Content-Disposition" =
        some ("inline; filename=\"" ++ pbasename fp ++ "\"") ∧
      (buildResponse s req fp).headers.lookup "Accept-Ranges" =
        some "bytes") ∧
    (lowerStr (extOf fp) ∉ binaryHeaderExts →
      (buildResponse s req fp).headers.lookup "Content-Disposition" = none ∧
      (buildResponse s req fp).headers.lookup "Accept-Ranges" = none) := by
  refine ⟨by simp [serve, hres, hm], ?_, ?_⟩
  · intro hb
    simp [buildResponse, hb, List.lookup_cons]
  · intro hb
    by_cases hdbg : s.debug
    · cases ho : req.origin <;>
        simp [buildResponse, corsHeaders, commonCorsHeaders, hdbg, ho, hb,
          List.lookup_cons]
    · cases ho : req.origin with
      | none =>
          simp [buildResponse, corsHeaders, commonCorsHeaders, hdbg, ho, hb,
            List.lookup_cons]
      | some o =>
          by_cases hmem : o ∈ s.corsAllowedOrigins <;>
            simp [buildResponse, corsHeaders, commonCorsHeaders, hdbg, ho,
              hb, hmem, List.lookup_cons]

/-- C9 witness: the resolved `.glb` file gets both streaming headers
with its own basename; the `.png` file gets neither. -/
theorem binary_format_streaming_headers_witness :
    ((buildResponse devSettings reqGetPlain "Drawing_ABC.glb").headers.lookup
        "Content-Disposition" =
      some ("inline; filename=\"" ++ pbasename "Drawing_ABC.glb" ++ "\"") ∧
     (buildResponse devSettings reqGetPlain "Drawing_ABC.glb").headers.lookup
        "Accept-Ranges" = some "bytes") ∧
    ((buildResponse devSettings reqGetPlain "x.png").headers.lookup
        "Content-Disposition" = none ∧
     (buildResponse devSettings reqGetPlain "x.png").headers.lookup
        "Accept-Ranges" = none) :=
  ⟨(binary_format_streaming_headers devSettings fsDrawing reqGetPlain
      "Drawing_ABC.glb" "Drawing_ABC.glb" (by decide) (by decide)).2.1
      (by decide),
   (binary_format_streaming_headers devSettings fsPng reqGetPlain
      "x.png" "x.png" (by decide) (by decide)).2.2 (by decide)⟩

/-- C10: the last-resort first-token pass accepts a candidate only when
its score (`best_score >= 2` at line 205) counts at least two original
tokens, so a request whose base name is a single underscore token can
never be resolved by it — its score is bounded by the token count `1` —
regardless of the filesystem contents. -/
theorem first_token_pass_never_resolves_single_token (fs : FS)
    (sd fileExt t : String) (parts : List String) (h : parts = [t]) :
    strategy3 fs sd parts fileExt = none := by
  subst h
  have hsc : ∀ b, scoreS3 [t] b ≤ 1 := by
    intro b
    simpa [scoreS3] using
      List.length_filter_le (fun part => strIn part (pbasename b)) [t]
  unfold strategy3
  cases hp : pickBest (scoreS3 [t]) (globIn fs sd t fileExt) with
  | none => simp [hp]
  | some b =>
      have hnot : ¬ (2 ≤ scoreS3 [t] b) := by
        have := hsc b; omega
      simp [hp, hnot]

/-- C10 witness: the filesystem holds `Foo_bar_baz.glb`, which the
first-token glob `Foo*` matches, yet the single-token request cannot be
resolved by strategy 3. -/
theorem first_token_pass_never_resolves_single_token_witness :
    strategy3 fsFooBar "" ["Foo"] ".glb" = none :=
  first_token_pass_never_resolves_single_token fsFooBar "" ".glb" "Foo"
    ["Foo"] rfl

end Media
